import Mathlib

/-!
Verification of the nodecat streaming concatenation engine.

The definitions below are a shallow embedding of the repository's
concatenation engine (`nodecat`), its error-aggregation helper
(`combineErrors` and the `AggregateError` class), its argument
validation, and its callback/promise dispatch.  Machine behaviour that
is event-driven in the source (stream `end`/`error` events, output-sink
`error` events) is modelled by an explicit environment that maps each
cursor position to the terminal event observed while copying that
input.
-/

namespace Nodecat

/-- A JavaScript `Error` value: its `name` property (for example
`"Error"`) and its `message` property. -/
structure JsError where
  ename : String
  message : String
deriving DecidableEq, Repr

/-- `Error.prototype.toString`: `name` and `message` joined by `": "`,
degenerating to just one of them when the other is empty. -/
def jsErrorToString (e : JsError) : String :=
  if e.ename = "" then e.message
  else if e.message = "" then e.ename
  else e.ename ++ ": " ++ e.message

/-- An error as accumulated by the engine: the underlying `Error`
together with the `fileName` property the engine attaches to read
failures (absent for output-sink failures). -/
structure ErrRecord where
  err : JsError
  fileName : Option String
deriving DecidableEq, Repr

/-- The running value of the engine's `errNodecat` variable:
`null`, a single error, or an `AggregateError` holding the errors in
occurrence order. -/
inductive ErrAcc where
  | none
  | single (r : ErrRecord)
  | agg (rs : List ErrRecord)
deriving DecidableEq, Repr

/-- `combineErrors(errPrev, errNew)` from the engine: keep a lone error
unwrapped, move to an `AggregateError` on the second, and push onto an
existing aggregate. -/
def combineErrors (errPrev : ErrAcc) (errNew : ErrRecord) : ErrAcc :=
  match errPrev with
  | ErrAcc.none => ErrAcc.single errNew
  | ErrAcc.single p => ErrAcc.agg [p, errNew]
  | ErrAcc.agg ps => ErrAcc.agg (ps ++ [errNew])

/-- The accumulator value reached after folding `combineErrors` over a
list of error records in order. -/
def accOfList : List ErrRecord → ErrAcc
  | [] => ErrAcc.none
  | [r] => ErrAcc.single r
  | rs => ErrAcc.agg rs

/-- The terminal event observed while copying one input to the output
sink: the bytes that reached the output, followed by the input's `end`
event, the input's `error` event, or an `error` event from the output
sink itself. -/
inductive CopyEvent where
  | inEnd (bytes : List Nat)
  | inErr (bytes : List Nat) (e : JsError)
  | outErr (bytes : List Nat) (e : JsError)
deriving DecidableEq, Repr

/-- The environment of one invocation: which names are registered in
`options.fileStreams` (caller-supplied streams), and the event observed
if the input at cursor position `i` is actually piped. -/
structure Env where
  isCaller : String → Bool
  event : Nat → CopyEvent

/-- The error line written for an input read failure:
`'nodecat: ' + fileName + ': ' + err.message + '\n'`. -/
def inErrorLine (fileName msg : String) : String :=
  "nodecat: " ++ fileName ++ ": " ++ msg ++ "\n"

/-- The error line written for an output sink failure:
`'nodecat: ' + err + '\n'`, which stringifies the error via
`Error.prototype.toString`. -/
def outErrorLine (e : JsError) : String :=
  "nodecat: " ++ jsErrorToString e ++ "\n"

/-- Observable state threaded through the engine loop: the
`callerStreamEnded` marker set, the `errNodecat` accumulator, the bytes
written to the output sink, the lines written to the error sink, and
(as pure instrumentation) the list of records handed to
`combineErrors`, in order. -/
structure RunState where
  ended : List String
  errAcc : ErrAcc
  out : List Nat
  errLines : List String
  recs : List ErrRecord
deriving DecidableEq, Repr

/-- Engine state at the start of an invocation. -/
def initRS : RunState :=
  { ended := [], errAcc := ErrAcc.none, out := [], errLines := [], recs := [] }

/-- The `catNext` loop of the engine.  At cursor `i` with remaining
names `l`: a name mapped to an already-ended caller stream is skipped
with no I/O; otherwise the input is piped and the terminal event
decides the branch.  `end` marks caller streams ended and advances;
input `error` attaches the name, accumulates, writes one error line,
marks ended and advances; output `error` accumulates a nameless record,
writes one error line, and terminates the whole loop. -/
def catLoop (env : Env) : Nat → List String → RunState → RunState
  | _, [], st => st
  | i, fileName :: rest, st =>
    if env.isCaller fileName && st.ended.contains fileName then
      catLoop env (i + 1) rest st
    else
      match env.event i with
      | CopyEvent.inEnd bytes =>
        catLoop env (i + 1) rest
          { st with
            out := st.out ++ bytes,
            ended := if env.isCaller fileName then fileName :: st.ended else st.ended }
      | CopyEvent.inErr bytes e =>
        let r : ErrRecord := ⟨e, some fileName⟩
        catLoop env (i + 1) rest
          { st with
            out := st.out ++ bytes,
            errAcc := combineErrors st.errAcc r,
            errLines := st.errLines ++ [inErrorLine fileName e.message],
            recs := st.recs ++ [r],
            ended := if env.isCaller fileName then fileName :: st.ended else st.ended }
      | CopyEvent.outErr bytes e =>
        let r : ErrRecord := ⟨e, Option.none⟩
        { st with
          out := st.out ++ bytes,
          errAcc := combineErrors st.errAcc r,
          errLines := st.errLines ++ [outErrorLine e],
          recs := st.recs ++ [r] }

/-- One engine invocation over a validated list of names, starting at
cursor 0 from the clean state. -/
def nodecatRun (env : Env) (names : List String) : RunState :=
  catLoop env 0 names initRS

/-- Concatenation of `contents i ++ contents (i+1) ++ …` over `k`
consecutive cursor positions. -/
def flattenFrom (contents : Nat → List Nat) : Nat → Nat → List Nat
  | _, 0 => []
  | i, k + 1 => contents i ++ flattenFrom contents (i + 1) k

/-- The error line produced for one record: input failures carry the
file name and use `err.message`; output failures use the error's
string rendering. -/
def lineOf (r : ErrRecord) : String :=
  match r.fileName with
  | some n => inErrorLine n r.err.message
  | Option.none => outErrorLine r.err

/-! ## The `AggregateError` class -/

/-- The `message` of an `AggregateError`: the constructor argument when
one was given, otherwise the prototype default. -/
def aggregateMessage : Option String → String
  | some m => m
  | Option.none => "Multiple errors occurred"

/-- One element reachable from an `AggregateError`: an ordinary `Error`
member, the aggregate itself (`this[i] === this`), or a nested
(distinct) `AggregateError` with its own message and members. -/
inductive AggEntry where
  | berr (ename message : String)
  | selfRef
  | agg (message : String) (entries : List AggEntry)

/-- `level * 4` spaces, as built by `Array(level * 4 + 1).join(' ')`. -/
def indentStr (level : Nat) : String :=
  String.mk (List.replicate (level * 4) ' ')

/-- `str.split('\n')` at the character level. -/
def splitLines : List Char → List (List Char)
  | [] => [[]]
  | c :: cs =>
    if c = '\n' then [] :: splitLines cs
    else
      match splitLines cs with
      | [] => [[c]]
      | l :: ls => (c :: l) :: ls

/-- `lines.join('\n')` at the character level. -/
def joinLines : List (List Char) → List Char
  | [] => []
  | [l] => l
  | l :: l2 :: ls => l ++ '\n' :: joinLines (l2 :: ls)

/-- Split a string on newlines, prepend `ind` to every line, and join
with newlines again, as the rendering loop does per member. -/
def prefixLines (ind s : String) : String :=
  String.mk (joinLines ((splitLines s.data).map (fun l => ind.data ++ l)))

mutual

/-- String conversion of one member at the current value of the
module-global `level` counter: the aggregate itself becomes the fixed
circular marker, an `Error` member stringifies as usual, and a nested
aggregate renders recursively. -/
def renderEntry (level : Nat) : AggEntry → String
  | AggEntry.berr n m => jsErrorToString ⟨n, m⟩
  | AggEntry.selfRef => "[Circular AggregateError]"
  | AggEntry.agg _ es =>
    "\n" ++ indentStr level ++ "AggregateError of:\n" ++ renderEntries (level + 1) es
termination_by structural e => e

/-- The member loop of `AggregateErrorToString`: each member's string
conversion has every line indented and is followed by a newline. -/
def renderEntries (level : Nat) : List AggEntry → String
  | [] => ""
  | e :: es =>
    prefixLines (indentStr level) (renderEntry level e) ++ "\n" ++ renderEntries level es
termination_by structural l => l

end

/-- `AggregateError.prototype.toString` invoked at the top level, where
the module-global `level` counter is 0. -/
def aggregateErrorToString (a : AggEntry) : String :=
  renderEntry 0 a

/-- The `AggregateError` value the engine hands to the callback for an
aggregate result: constructed with no message, containing the recorded
errors in order. -/
def aggOfRecords (rs : List ErrRecord) : AggEntry :=
  AggEntry.agg (aggregateMessage Option.none)
    (rs.map (fun r => AggEntry.berr r.err.ename r.err.message))

/-! ## Argument validation -/

/-- The observable class of a JavaScript numeric `length` value, as far
as the check `length !== Math.floor(length)` and finiteness are
concerned.  `undef` stands for a missing `length` property
(`undefined !== Math.floor(undefined)` holds since the floor is `NaN`). -/
inductive JsNum where
  | intVal (n : Int)
  | nonIntegral
  | nan
  | inf
  | ninf
  | undef
deriving DecidableEq, Repr

/-- Whether `x === Math.floor(x)` holds for the length class: true for
integers and both infinities, false for `NaN`, finite non-integers and
`undefined`. -/
def jsFloorEq : JsNum → Bool
  | JsNum.intVal _ => true
  | JsNum.inf => true
  | JsNum.ninf => true
  | _ => false

/-- The `fileNames` argument: a genuine array of strings, a falsy value
(`null`/`undefined`/…), a truthy non-object, or some other array-like
object about which only the `length` property is known. -/
inductive NamesArg where
  | strings (names : List String)
  | nullOrFalsy
  | nonObjectTruthy
  | arrayLike (len : JsNum)
deriving DecidableEq, Repr

/-- The `options.fileStreams` argument. -/
inductive FsArg where
  | missing
  | falsy
  | truthyNonObject
  | objMap
deriving DecidableEq, Repr

/-- An output or error sink argument. -/
inductive SinkArg where
  | missing
  | falsy
  | writable
  | truthyNoWrite
deriving DecidableEq, Repr

/-- The `options` argument: falsy, a truthy non-object, or an object
carrying the three recognised properties. -/
inductive OptionsArg where
  | absentOrFalsy
  | truthyNonObject
  | obj (fs : FsArg) (out : SinkArg) (err : SinkArg)
deriving DecidableEq, Repr

/-- Truthiness of a `fileStreams` value. -/
def fsTruthy : FsArg → Bool
  | FsArg.truthyNonObject => true
  | FsArg.objMap => true
  | _ => false

/-- Whether `typeof` the `fileStreams` value is `'object'`. -/
def fsIsObjectShape : FsArg → Bool
  | FsArg.objMap => true
  | _ => false

/-- Truthiness of a sink value. -/
def sinkTruthy : SinkArg → Bool
  | SinkArg.writable => true
  | SinkArg.truthyNoWrite => true
  | _ => false

/-- Whether the sink's `write` property is a function. -/
def sinkHasWrite : SinkArg → Bool
  | SinkArg.writable => true
  | _ => false

/-- The check on `fileNames` (lines `if (!fileNames || typeof
fileNames !== 'object' || fileNames.length !== Math.floor(
fileNames.length))`). -/
def namesOK : NamesArg → Bool
  | NamesArg.strings _ => true
  | NamesArg.nullOrFalsy => false
  | NamesArg.nonObjectTruthy => false
  | NamesArg.arrayLike len => jsFloorEq len

/-- The check `options && typeof options !== 'object'`. -/
def optsBad : OptionsArg → Bool
  | OptionsArg.truthyNonObject => true
  | _ => false

/-- The check `typeof callerStreams !== 'object'` after the resolution
`callerStreams = (options && options.fileStreams) || {}` (a falsy
`fileStreams`, or any non-object `options`, resolves to `{}`). -/
def fsBad : OptionsArg → Bool
  | OptionsArg.obj fs _ _ => fsTruthy fs && !fsIsObjectShape fs
  | _ => false

/-- The check `typeof outStream.write !== 'function'` after the
resolution `outStream = (options && options.outStream) ||
process.stdout` (the default has a `write` method). -/
def outBad : OptionsArg → Bool
  | OptionsArg.obj _ o _ => sinkTruthy o && !sinkHasWrite o
  | _ => false

/-- The check `typeof errStream.write !== 'function'` after the
resolution `errStream = (options && options.errStream) ||
process.stderr` (the default has a `write` method). -/
def errBad : OptionsArg → Bool
  | OptionsArg.obj _ _ e => sinkTruthy e && !sinkHasWrite e
  | _ => false

/-- The validation block of `nodecat` (inside `try`): the first failing
check's `TypeError` message, or `none` when every check passes. -/
def validate (names : NamesArg) (opts : OptionsArg) : Option String :=
  if !namesOK names then some "fileNames must be an Array-like object"
  else if optsBad opts then some "options must be an object"
  else if fsBad opts then some "options.fileStreams must be an object"
  else if outBad opts then some "options.outStream must be a stream.Writable"
  else if errBad opts then some "options.errStream must be a stream.Writable"
  else none

/-- The list of names the `catNext` loop iterates over once validation
passed.  A genuine array yields its elements; an array-like with a
non-positive integral length yields no iterations, since `0 >= length`
holds at once.  Array-likes with positive or infinite lengths have
unknown elements and are outside the model. -/
def namesForEngine : NamesArg → Option (List String)
  | NamesArg.strings ns => some ns
  | NamesArg.arrayLike (JsNum.intVal n) => if n ≤ 0 then some [] else Option.none
  | _ => Option.none

/-- What one invocation reports through the completion channel. -/
inductive Outcome where
  | typeError (msg : String)
  | engine (acc : ErrAcc)
  | unmodeled
deriving DecidableEq, Repr

/-- A whole invocation: validation failures short-circuit to the
callback with the `TypeError` and touch no stream; otherwise the
`catNext` loop runs and its accumulator is delivered. -/
def nodecatFull (names : NamesArg) (opts : OptionsArg) (env : Env) : Outcome × RunState :=
  match validate names opts with
  | some m => (Outcome.typeError m, initRS)
  | Option.none =>
    match namesForEngine names with
    | some ns =>
      let r := nodecatRun env ns
      (Outcome.engine r.errAcc, r)
    | Option.none => (Outcome.unmodeled, initRS)

/-- The claim's notion of a well-formed `names` value: a finite,
indexable, ordered sequence (a genuine array, or an array-like with a
non-negative finite integral length). -/
def isFiniteOrderedSequence : NamesArg → Bool
  | NamesArg.strings _ => true
  | NamesArg.arrayLike (JsNum.intVal n) => decide (0 ≤ n)
  | _ => false

/-- Whether the string `p` starts the string `s`, at the character
level. -/
def strStarts (p s : String) : Bool :=
  List.isPrefixOf p.data s.data

/-- The parameters whose validation conditions are violated, in check
order, each named as the corresponding `TypeError` message names it. -/
def violatedParams (names : NamesArg) (opts : OptionsArg) : List String :=
  (if !namesOK names then ["fileNames"] else []) ++
  (if optsBad opts then ["options"] else []) ++
  (if fsBad opts then ["options.fileStreams"] else []) ++
  (if outBad opts then ["options.outStream"] else []) ++
  (if errBad opts then ["options.errStream"] else [])

/-! ## Callback / promise dispatch -/

/-- The `callback` argument's observable class. -/
inductive CbArg where
  | missing
  | func
  | truthyNonFunc
  | falsyNonFunc
deriving DecidableEq, Repr

/-- Truthiness test `!callback`. -/
def cbFalsy : CbArg → Bool
  | CbArg.missing => true
  | CbArg.falsyNonFunc => true
  | _ => false

/-- The test `typeof callback === 'function'`. -/
def cbIsFunction : CbArg → Bool
  | CbArg.func => true
  | _ => false

/-- How `nodecat` proceeds past its argument-shuffling preamble. -/
inductive Dispatch where
  | promise
  | run
  | throwTypeError (msg : String)
deriving DecidableEq, Repr

/-- The dispatch preamble of `nodecat`: a falsy callback with a
function-typed `options` shifts `options` into the callback slot; a
(still) falsy callback returns a `Promise` when `global.Promise` is a
function; a non-function callback throws synchronously; otherwise the
engine runs with the callback. -/
def nodecatDispatch (promiseAvail optionsIsFunction : Bool) (cb : CbArg) : Dispatch :=
  let cb := if cbFalsy cb && optionsIsFunction then CbArg.func else cb
  if cbFalsy cb && promiseAvail then Dispatch.promise
  else if !cbIsFunction cb then Dispatch.throwTypeError "callback must be a function"
  else Dispatch.run

/-- How the returned `Promise` settles from the engine result: `if
(err) { reject(err); } else { resolve(result); }`. -/
def promiseSettle (acc : ErrAcc) : Except ErrAcc Unit :=
  match acc with
  | ErrAcc.none => Except.ok ()
  | e => Except.error e

/-! ## Helper lemmas about the engine loop -/

theorem catLoop_skipAll (env : Env) :
    ∀ (l : List String) (i : Nat) (st : RunState),
      (∀ n ∈ l, env.isCaller n = true ∧ st.ended.contains n = true) →
      catLoop env i l st = st := by
  intro l
  induction l with
  | nil => intro i st _; rfl
  | cons n rest ih =>
    intro i st h
    have hn := h n (List.mem_cons_self n rest)
    simp only [catLoop, hn.1, hn.2, Bool.and_self, if_true]
    exact ih (i + 1) st (fun m hm => h m (List.mem_cons_of_mem n hm))

theorem combine_accOfList (rs : List ErrRecord) (r : ErrRecord) :
    combineErrors (accOfList rs) r = accOfList (rs ++ [r]) := by
  match rs with
  | [] => rfl
  | [a] => rfl
  | a :: b :: t => simp [accOfList, combineErrors]

theorem catLoop_acc (env : Env) :
    ∀ (l : List String) (i : Nat) (st : RunState),
      st.errAcc = accOfList st.recs →
      (catLoop env i l st).errAcc = accOfList (catLoop env i l st).recs := by
  intro l
  induction l with
  | nil => intro i st h; exact h
  | cons n rest ih =>
    intro i st h
    by_cases hc : (env.isCaller n && st.ended.contains n) = true
    · simp only [catLoop, hc, if_true]
      exact ih _ _ h
    · simp only [catLoop, hc, if_false]
      cases hev : env.event i with
      | inEnd bytes =>
        exact ih _ _ h
      | inErr bytes e =>
        exact ih _ _ (by simp [h, combine_accOfList])
      | outErr bytes e =>
        simp [h, combine_accOfList]

theorem catLoop_lines (env : Env) :
    ∀ (l : List String) (i : Nat) (st : RunState),
      st.errLines = st.recs.map lineOf →
      (catLoop env i l st).errLines = (catLoop env i l st).recs.map lineOf := by
  intro l
  induction l with
  | nil => intro i st h; exact h
  | cons n rest ih =>
    intro i st h
    by_cases hc : (env.isCaller n && st.ended.contains n) = true
    · simp only [catLoop, hc, if_true]
      exact ih _ _ h
    · simp only [catLoop, hc, if_false]
      cases hev : env.event i with
      | inEnd bytes =>
        exact ih _ _ h
      | inErr bytes e =>
        exact ih _ _ (by simp [h, lineOf])
      | outErr bytes e =>
        simp [h, lineOf]

theorem catLoop_allEnd (env : Env) :
    ∀ (l : List String) (i : Nat) (st : RunState) (contents : Nat → List Nat),
      (∀ k, k < l.length → env.event (i + k) = CopyEvent.inEnd (contents (i + k))) →
      (∀ n ∈ l, env.isCaller n = true → n ∉ st.ended) →
      (l.filter (fun n => env.isCaller n)).Nodup →
      (catLoop env i l st).out = st.out ++ flattenFrom contents i l.length ∧
      (catLoop env i l st).errAcc = st.errAcc ∧
      (catLoop env i l st).errLines = st.errLines ∧
      (catLoop env i l st).recs = st.recs := by
  intro l
  induction l with
  | nil =>
    intro i st contents _ _ _
    simp [catLoop, flattenFrom]
  | cons n rest ih =>
    intro i st contents hev hend hnd
    have hskip : (env.isCaller n && st.ended.contains n) = false := by
      by_cases hc : env.isCaller n = true
      · simp [hend n (List.mem_cons_self n rest) hc]
      · simp [Bool.eq_false_iff.mpr hc]
    have hev0 : env.event i = CopyEvent.inEnd (contents i) := by
      have := hev 0 (by simp)
      simpa using this
    simp only [catLoop, hskip, Bool.false_eq_true, if_false, hev0]
    have hev' : ∀ k, k < rest.length →
        env.event (i + 1 + k) = CopyEvent.inEnd (contents (i + 1 + k)) := by
      intro k hk
      have := hev (k + 1) (by simpa using Nat.succ_lt_succ hk)
      have harith : i + (k + 1) = i + 1 + k := by omega
      rwa [harith] at this
    have hnd' : (rest.filter (fun m => env.isCaller m)).Nodup := by
      by_cases hc : env.isCaller n = true
      · have : (n :: rest).filter (fun m => env.isCaller m) =
            n :: rest.filter (fun m => env.isCaller m) := by
          simp [List.filter_cons, hc]
        rw [this] at hnd
        exact hnd.of_cons
      · have : (n :: rest).filter (fun m => env.isCaller m) =
            rest.filter (fun m => env.isCaller m) := by
          simp [List.filter_cons, Bool.eq_false_iff.mpr hc]
        rwa [this] at hnd
    have hend' : ∀ m ∈ rest, env.isCaller m = true →
        m ∉ (if env.isCaller n then n :: st.ended else st.ended) := by
      intro m hm hcm
      have hbase := hend m (List.mem_cons_of_mem n hm) hcm
      by_cases hc : env.isCaller n = true
      · have hmn : m ≠ n := by
          intro hEq
          subst hEq
          have : (m :: rest).filter (fun x => env.isCaller x) =
              m :: rest.filter (fun x => env.isCaller x) := by
            simp [List.filter_cons, hc]
          rw [this] at hnd
          exact (List.nodup_cons.mp hnd).1 (List.mem_filter.mpr ⟨hm, hcm⟩)
        simp [hc, hbase, hmn]
      · simp [Bool.eq_false_iff.mpr hc, hbase]
    have := ih (i + 1)
      { st with
        out := st.out ++ contents i,
        ended := if env.isCaller n then n :: st.ended else st.ended }
      contents hev' hend' hnd'
    refine ⟨?_, this.2.1, this.2.2.1, this.2.2.2⟩
    rw [this.1]
    simp [flattenFrom, List.append_assoc]

/-! ## Concrete environments used by witnesses and counterexamples -/

/-- Environment with no caller-supplied streams in which input `i`
delivers the single byte `i + 1` and ends. -/
def envW1 : Env := ⟨fun _ => false, fun i => CopyEvent.inEnd [i + 1]⟩

/-- Environment in which every name is caller-supplied and the first
piped input delivers bytes `[7, 8]` and ends. -/
def envW2 : Env := ⟨fun _ => true, fun _ => CopyEvent.inEnd [7, 8]⟩

/-- Environment with no caller-supplied streams in which the first
piped input fails with `boom` before emitting bytes and every later
input delivers byte `66` and ends. -/
def envW3 : Env :=
  ⟨fun _ => false, fun i =>
    if i = 0 then CopyEvent.inErr [] ⟨"Error", "boom"⟩ else CopyEvent.inEnd [66]⟩

/-- Environment with no caller-supplied streams in which input `i`
fails with message `test read error (i+1)` before emitting bytes. -/
def envW4 : Env :=
  ⟨fun _ => false, fun i =>
    CopyEvent.inErr [] ⟨"Error", "test read error " ++ toString (i + 1)⟩⟩

/-- Environment with no caller-supplied streams in which the first
piped input fails reading after emitting byte `1`, and the output sink
fails during the second copy after accepting byte `2`. -/
def envW5 : Env :=
  ⟨fun _ => false, fun i =>
    if i = 0 then CopyEvent.inErr [1] ⟨"Error", "read boom"⟩
    else CopyEvent.outErr [2] ⟨"Error", "write boom"⟩⟩

/-- Environment with no caller-supplied streams in which the output
sink fails immediately with `boom` on the first copy. -/
def envW6 : Env := ⟨fun _ => false, fun _ => CopyEvent.outErr [] ⟨"Error", "boom"⟩⟩

/-- Environment in which every name is caller-supplied and every piped
input fails with `boom` after emitting byte `3`. -/
def envW10 : Env := ⟨fun _ => true, fun _ => CopyEvent.inErr [3] ⟨"Error", "boom"⟩⟩

/-- Environment with no caller-supplied streams in which every piped
input ends at once with no bytes. -/
def envW7 : Env := ⟨fun _ => false, fun _ => CopyEvent.inEnd []⟩

/-- An aggregate holding an `Error` and a nested aggregate holding a
second `Error`, for exercising the nested-rendering indentation. -/
def nestedAgg : AggEntry :=
  AggEntry.agg "Multiple errors occurred"
    [AggEntry.berr "Error" "m1",
     AggEntry.agg "Multiple errors occurred" [AggEntry.berr "Error" "m2"]]

/-! ## Claim theorems -/

/-- C1: when every processed input succeeds (and no caller-supplied
name repeats, so that the read-once rule does not drop an occurrence),
the bytes written to the output sink are exactly the concatenation, in
list order, of each position's contents, with nothing added; no error
line is written and the accumulated result is the success value.  The
empty list is the `names = []` instance, where `flattenFrom` is `[]`. -/
theorem nodecat_concat_success (env : Env) (names : List String) (contents : Nat → List Nat)
    (hev : ∀ i, i < names.length → env.event i = CopyEvent.inEnd (contents i))
    (hnd : (names.filter (fun n => env.isCaller n)).Nodup) :
    (nodecatRun env names).out = flattenFrom contents 0 names.length ∧
    (nodecatRun env names).errAcc = ErrAcc.none ∧
    (nodecatRun env names).errLines = [] := by
  have h := catLoop_allEnd env names 0 initRS contents
    (by intro k hk; simpa using hev k hk)
    (by intro n _ _; simp [initRS])
    hnd
  refine ⟨?_, ?_, ?_⟩
  · simpa [nodecatRun, initRS] using h.1
  · simpa [nodecatRun, initRS] using h.2.1
  · simpa [nodecatRun, initRS] using h.2.2.1

theorem nodecat_concat_success_witness :
    (∀ i, i < (["a", "b"] : List String).length →
      envW1.event i = CopyEvent.inEnd [i + 1]) ∧
    ((["a", "b"] : List String).filter (fun n => envW1.isCaller n)).Nodup ∧
    ((nodecatRun envW1 ["a", "b"]).out = flattenFrom (fun i => [i + 1]) 0 2 ∧
     (nodecatRun envW1 ["a", "b"]).errAcc = ErrAcc.none ∧
     (nodecatRun envW1 ["a", "b"]).errLines = []) :=
  ⟨by decide, by decide,
    nodecat_concat_success envW1 ["a", "b"] (fun i => [i + 1]) (by decide) (by decide)⟩

/-- C2: a caller-supplied stream is read at most once per invocation.
For a list consisting of `k + 1` occurrences of one caller-supplied
name whose stream delivers bytes `B`, the output is exactly `B` (not
`B` repeated), the later occurrences are skipped with no I/O and no
error, and the result is the success value. -/
theorem callerStream_read_once (env : Env) (name : String) (B : List Nat) (k : Nat)
    (hc : env.isCaller name = true)
    (hev : env.event 0 = CopyEvent.inEnd B) :
    (nodecatRun env (List.replicate (k + 1) name)).out = B ∧
    (nodecatRun env (List.replicate (k + 1) name)).errAcc = ErrAcc.none ∧
    (nodecatRun env (List.replicate (k + 1) name)).errLines = [] := by
  have h1 : nodecatRun env (List.replicate (k + 1) name) =
      catLoop env 1 (List.replicate k name)
        { ended := [name], errAcc := ErrAcc.none, out := B, errLines := [], recs := [] } := by
    simp [nodecatRun, List.replicate_succ, catLoop, initRS, hc, hev]
  have h2 : catLoop env 1 (List.replicate k name)
      { ended := [name], errAcc := ErrAcc.none, out := B, errLines := [], recs := [] } =
      { ended := [name], errAcc := ErrAcc.none, out := B, errLines := [], recs := [] } := by
    apply catLoop_skipAll
    intro m hm
    have hmn : m = name := List.eq_of_mem_replicate hm
    subst hmn
    simp [hc]
  rw [h1, h2]
  exact ⟨rfl, rfl, rfl⟩

theorem callerStream_read_once_witness :
    envW2.isCaller "-" = true ∧
    envW2.event 0 = CopyEvent.inEnd [7, 8] ∧
    ((nodecatRun envW2 (List.replicate 2 "-")).out = [7, 8] ∧
     (nodecatRun envW2 (List.replicate 2 "-")).errAcc = ErrAcc.none ∧
     (nodecatRun envW2 (List.replicate 2 "-")).errLines = []) :=
  ⟨by decide, by decide, callerStream_read_once envW2 "-" [7, 8] 1 (by decide) (by decide)⟩

/-- C10: a caller-supplied stream whose read fails is marked consumed
exactly as on normal end-of-data: for `k + 1` occurrences of its name,
only the first is piped — the output holds only the bytes emitted
before the failure, a single error record (carrying the name) and a
single error line exist, and the later occurrences are skipped with no
I/O and no new record. -/
theorem failedStream_not_retried (env : Env) (name : String) (e : JsError)
    (b : List Nat) (k : Nat)
    (hc : env.isCaller name = true)
    (hev : env.event 0 = CopyEvent.inErr b e) :
    (nodecatRun env (List.replicate (k + 1) name)).out = b ∧
    (nodecatRun env (List.replicate (k + 1) name)).errAcc = ErrAcc.single ⟨e, some name⟩ ∧
    (nodecatRun env (List.replicate (k + 1) name)).recs = [⟨e, some name⟩] ∧
    (nodecatRun env (List.replicate (k + 1) name)).errLines =
      [inErrorLine name e.message] := by
  have h1 : nodecatRun env (List.replicate (k + 1) name) =
      catLoop env 1 (List.replicate k name)
        { ended := [name], errAcc := ErrAcc.single ⟨e, some name⟩, out := b,
          errLines := [inErrorLine name e.message], recs := [⟨e, some name⟩] } := by
    simp [nodecatRun, List.replicate_succ, catLoop, initRS, hc, hev, combineErrors]
  have h2 : catLoop env 1 (List.replicate k name)
      { ended := [name], errAcc := ErrAcc.single ⟨e, some name⟩, out := b,
        errLines := [inErrorLine name e.message], recs := [⟨e, some name⟩] } =
      { ended := [name], errAcc := ErrAcc.single ⟨e, some name⟩, out := b,
        errLines := [inErrorLine name e.message], recs := [⟨e, some name⟩] } := by
    apply catLoop_skipAll
    intro m hm
    have hmn : m = name := List.eq_of_mem_replicate hm
    subst hmn
    simp [hc]
  rw [h1, h2]
  exact ⟨rfl, rfl, rfl, rfl⟩

theorem failedStream_not_retried_witness :
    envW10.isCaller "-" = true ∧
    envW10.event 0 = CopyEvent.inErr [3] ⟨"Error", "boom"⟩ ∧
    ((nodecatRun envW10 (List.replicate 3 "-")).out = [3] ∧
     (nodecatRun envW10 (List.replicate 3 "-")).errAcc =
       ErrAcc.single ⟨⟨"Error", "boom"⟩, some "-"⟩ ∧
     (nodecatRun envW10 (List.replicate 3 "-")).recs = [⟨⟨"Error", "boom"⟩, some "-"⟩] ∧
     (nodecatRun envW10 (List.replicate 3 "-")).errLines =
       [inErrorLine "-" "boom"]) :=
  ⟨by decide, by decide,
    failedStream_not_retried envW10 "-" ⟨"Error", "boom"⟩ [3] 2 (by decide) (by decide)⟩

/-- C3: the completion result's shape follows the failure count — no
recorded failure yields the success value and exactly one recorded
failure yields that record itself, unwrapped; in particular for
`names = [A, B]` where reading `A` fails with `e` before emitting
bytes and `B` succeeds with bytes `bB`, the output is exactly `bB`,
one error line is written for `A`, and the result is the single record
carrying `A`'s name. -/
theorem single_error_unwrapped :
    (∀ (env : Env) (names : List String), (nodecatRun env names).recs = [] →
        (nodecatRun env names).errAcc = ErrAcc.none) ∧
    (∀ (env : Env) (names : List String) (r : ErrRecord),
        (nodecatRun env names).recs = [r] →
        (nodecatRun env names).errAcc = ErrAcc.single r) ∧
    (∀ (env : Env) (A B : String) (e : JsError) (bB : List Nat),
        env.isCaller A = false → env.isCaller B = false →
        env.event 0 = CopyEvent.inErr [] e → env.event 1 = CopyEvent.inEnd bB →
        (nodecatRun env [A, B]).out = bB ∧
        (nodecatRun env [A, B]).errAcc = ErrAcc.single ⟨e, some A⟩ ∧
        (nodecatRun env [A, B]).errLines = [inErrorLine A e.message]) := by
  have hacc : ∀ (env : Env) (names : List String),
      (nodecatRun env names).errAcc = accOfList (nodecatRun env names).recs := by
    intro env names
    exact catLoop_acc env names 0 initRS (by simp [initRS, accOfList])
  refine ⟨?_, ?_, ?_⟩
  · intro env names h
    rw [hacc env names, h]
    rfl
  · intro env names r h
    rw [hacc env names, h]
    rfl
  · intro env A B e bB hA hB hev0 hev1
    refine ⟨?_, ?_, ?_⟩ <;>
      simp [nodecatRun, catLoop, initRS, hA, hB, hev0, hev1, combineErrors]

theorem single_error_unwrapped_witness :
    envW3.isCaller "f1.txt" = false ∧
    envW3.isCaller "f2.txt" = false ∧
    envW3.event 0 = CopyEvent.inErr [] ⟨"Error", "boom"⟩ ∧
    envW3.event 1 = CopyEvent.inEnd [66] ∧
    ((nodecatRun envW3 ["f1.txt", "f2.txt"]).out = [66] ∧
     (nodecatRun envW3 ["f1.txt", "f2.txt"]).errAcc =
       ErrAcc.single ⟨⟨"Error", "boom"⟩, some "f1.txt"⟩ ∧
     (nodecatRun envW3 ["f1.txt", "f2.txt"]).errLines =
       [inErrorLine "f1.txt" "boom"]) :=
  ⟨by decide, by decide, by decide, by decide,
    single_error_unwrapped.2.2 envW3 "f1.txt" "f2.txt" ⟨"Error", "boom"⟩ [66]
      (by decide) (by decide) (by decide) (by decide)⟩

/-- C4: with two or more recorded failures the result is the aggregate
of exactly the recorded failures, in occurrence order; for three
read-failing inputs the aggregate members are the three records in
order, each carrying its input's name, the member count is 3, and the
rendering of the corresponding `AggregateError` lists the three
messages in order. -/
theorem multiple_errors_aggregate :
    (∀ (env : Env) (names : List String), 2 ≤ (nodecatRun env names).recs.length →
        (nodecatRun env names).errAcc = ErrAcc.agg (nodecatRun env names).recs) ∧
    (∀ (env : Env) (n1 n2 n3 : String) (e1 e2 e3 : JsError) (b1 b2 b3 : List Nat),
        env.isCaller n1 = false → env.isCaller n2 = false → env.isCaller n3 = false →
        env.event 0 = CopyEvent.inErr b1 e1 → env.event 1 = CopyEvent.inErr b2 e2 →
        env.event 2 = CopyEvent.inErr b3 e3 →
        (nodecatRun env [n1, n2, n3]).errAcc =
          ErrAcc.agg [⟨e1, some n1⟩, ⟨e2, some n2⟩, ⟨e3, some n3⟩] ∧
        (nodecatRun env [n1, n2, n3]).recs.length = 3 ∧
        (nodecatRun env [n1, n2, n3]).errLines =
          [inErrorLine n1 e1.message, inErrorLine n2 e2.message,
           inErrorLine n3 e3.message]) ∧
    (aggregateErrorToString (aggOfRecords
        [⟨⟨"Error", "test read error 1"⟩, some "file1.txt"⟩,
         ⟨⟨"Error", "test read error 2"⟩, some "file2.txt"⟩,
         ⟨⟨"Error", "test read error 3"⟩, some "file3.txt"⟩]) =
      "\nAggregateError of:\n    Error: test read error 1\n" ++
        "    Error: test read error 2\n    Error: test read error 3\n") := by
  have hacc : ∀ (env : Env) (names : List String),
      (nodecatRun env names).errAcc = accOfList (nodecatRun env names).recs := by
    intro env names
    exact catLoop_acc env names 0 initRS (by simp [initRS, accOfList])
  refine ⟨?_, ?_, ?_⟩
  · intro env names hlen
    rw [hacc env names]
    rcases hl : (nodecatRun env names).recs with _ | ⟨a, _ | ⟨b, t⟩⟩
    · rw [hl] at hlen; simp at hlen
    · rw [hl] at hlen; simp at hlen
    · rfl
  · intro env n1 n2 n3 e1 e2 e3 b1 b2 b3 h1 h2 h3 hev0 hev1 hev2
    refine ⟨?_, ?_, ?_⟩ <;>
      simp [nodecatRun, catLoop, initRS, h1, h2, h3, hev0, hev1, hev2, combineErrors]
  · decide

theorem multiple_errors_aggregate_witness :
    envW4.event 0 = CopyEvent.inErr [] ⟨"Error", "test read error 1"⟩ ∧
    envW4.event 1 = CopyEvent.inErr [] ⟨"Error", "test read error 2"⟩ ∧
    envW4.event 2 = CopyEvent.inErr [] ⟨"Error", "test read error 3"⟩ ∧
    ((nodecatRun envW4 ["file1.txt", "file2.txt", "file3.txt"]).errAcc =
      ErrAcc.agg
        [⟨⟨"Error", "test read error 1"⟩, some "file1.txt"⟩,
         ⟨⟨"Error", "test read error 2"⟩, some "file2.txt"⟩,
         ⟨⟨"Error", "test read error 3"⟩, some "file3.txt"⟩] ∧
     (nodecatRun envW4 ["file1.txt", "file2.txt", "file3.txt"]).recs.length = 3 ∧
     (nodecatRun envW4 ["file1.txt", "file2.txt", "file3.txt"]).errLines =
       [inErrorLine "file1.txt" "test read error 1",
        inErrorLine "file2.txt" "test read error 2",
        inErrorLine "file3.txt" "test read error 3"]) :=
  ⟨by decide, by decide, by decide,
    multiple_errors_aggregate.2.1 envW4 "file1.txt" "file2.txt" "file3.txt"
      ⟨"Error", "test read error 1"⟩ ⟨"Error", "test read error 2"⟩
      ⟨"Error", "test read error 3"⟩ [] [] []
      (by decide) (by decide) (by decide) (by decide) (by decide) (by decide)⟩

/-- C5: an output-sink failure terminates the invocation — however
many names remain after the one in flight, none is processed: the
result is independent of `rest`, the failure is recorded with no
originating name, one error line is written for it, and when an input
failure preceded it in the same invocation the result is the aggregate
of exactly those two records. -/
theorem output_error_stops_processing (env : Env) (nA nB : String) (rest : List String)
    (e1 e2 : JsError) (b1 b2 : List Nat)
    (hA : env.isCaller nA = false) (hB : env.isCaller nB = false)
    (hev0 : env.event 0 = CopyEvent.inErr b1 e1)
    (hev1 : env.event 1 = CopyEvent.outErr b2 e2) :
    (nodecatRun env (nA :: nB :: rest)).out = b1 ++ b2 ∧
    (nodecatRun env (nA :: nB :: rest)).errAcc =
      ErrAcc.agg [⟨e1, some nA⟩, ⟨e2, Option.none⟩] ∧
    (nodecatRun env (nA :: nB :: rest)).errLines =
      [inErrorLine nA e1.message, outErrorLine e2] ∧
    (nodecatRun env (nA :: nB :: rest)).recs =
      [⟨e1, some nA⟩, ⟨e2, Option.none⟩] := by
  refine ⟨?_, ?_, ?_, ?_⟩ <;>
    simp [nodecatRun, catLoop, initRS, hA, hB, hev0, hev1, combineErrors]

theorem output_error_stops_processing_witness :
    envW5.isCaller "f1" = false ∧
    envW5.isCaller "f2" = false ∧
    envW5.event 0 = CopyEvent.inErr [1] ⟨"Error", "read boom"⟩ ∧
    envW5.event 1 = CopyEvent.outErr [2] ⟨"Error", "write boom"⟩ ∧
    ((nodecatRun envW5 ["f1", "f2", "f3", "f4"]).out = [1] ++ [2] ∧
     (nodecatRun envW5 ["f1", "f2", "f3", "f4"]).errAcc =
       ErrAcc.agg [⟨⟨"Error", "read boom"⟩, some "f1"⟩, ⟨⟨"Error", "write boom"⟩, Option.none⟩] ∧
     (nodecatRun envW5 ["f1", "f2", "f3", "f4"]).errLines =
       [inErrorLine "f1" "read boom", outErrorLine ⟨"Error", "write boom"⟩] ∧
     (nodecatRun envW5 ["f1", "f2", "f3", "f4"]).recs =
       [⟨⟨"Error", "read boom"⟩, some "f1"⟩, ⟨⟨"Error", "write boom"⟩, Option.none⟩]) :=
  ⟨by decide, by decide, by decide, by decide,
    output_error_stops_processing envW5 "f1" "f2" ["f3", "f4"]
      ⟨"Error", "read boom"⟩ ⟨"Error", "write boom"⟩ [1] [2]
      (by decide) (by decide) (by decide) (by decide)⟩

/-- C6 (counterexample): an output-sink failure with message `boom`
produces the error line `nodecat: Error: boom\n` — built from the
error's string rendering — and not the claimed `nodecat: boom\n` built
from the message alone. -/
theorem output_error_line_counterexample :
    (nodecatRun envW6 ["f"]).errLines = ["nodecat: Error: boom\n"] ∧
    (nodecatRun envW6 ["f"]).errLines ≠ ["nodecat: boom\n"] := by
  decide

/-- C6 (amended): every failure writes exactly one line to the error
sink, in detection order — `nodecat: <name>: <message>\n` for an input
read failure, and `nodecat: <errString>\n` for an output failure,
where `errString` is the error's own string rendering
(`<errname>: <message>` for an ordinary error), not the bare message. -/
theorem error_lines_per_failure (env : Env) (names : List String) :
    (nodecatRun env names).errLines = (nodecatRun env names).recs.map lineOf :=
  catLoop_lines env names 0 initRS (by simp [initRS])

/-- C7 (counterexample): an array-like `names` whose `length` is the
integer `-1` is not a finite ordered sequence, yet validation accepts
it (`-1 === Math.floor(-1)`), no `TypeError` is reported, and the
invocation completes successfully with no I/O. -/
theorem validation_counterexample :
    isFiniteOrderedSequence (NamesArg.arrayLike (JsNum.intVal (-1))) = false ∧
    (nodecatFull (NamesArg.arrayLike (JsNum.intVal (-1))) OptionsArg.absentOrFalsy envW7).1 =
      Outcome.engine ErrAcc.none ∧
    (nodecatFull (NamesArg.arrayLike (JsNum.intVal (-1))) OptionsArg.absentOrFalsy envW7).2.out =
      [] := by
  decide

/-- C7 (amended): validation rejects exactly the arguments one of
whose code-level conditions is violated — `names` falsy, non-object,
or with `length !== Math.floor(length)` (negative and infinite
integral lengths pass), truthy non-object `options` or `fileStreams`,
or a truthy sink without a `write` function (falsy values default) —
and on rejection performs no I/O and reports a `TypeError` through the
completion channel whose message begins with the offending parameter's
name. -/
theorem validation_reports_typeError (names : NamesArg) (opts : OptionsArg) (env : Env) :
    ((validate names opts).isSome ↔ violatedParams names opts ≠ []) ∧
    (∀ m, validate names opts = some m →
      (nodecatFull names opts env).1 = Outcome.typeError m ∧
      (nodecatFull names opts env).2.out = [] ∧
      (nodecatFull names opts env).2.errLines = [] ∧
      ∃ p ∈ violatedParams names opts, strStarts p m = true) := by
  constructor
  · by_cases h1 : namesOK names <;> by_cases h2 : optsBad opts <;>
      by_cases h3 : fsBad opts <;> by_cases h4 : outBad opts <;>
      by_cases h5 : errBad opts <;>
      simp [validate, violatedParams, h1, h2, h3, h4, h5]
  · intro m h
    have hfull : nodecatFull names opts env = (Outcome.typeError m, initRS) := by
      simp [nodecatFull, h]
    refine ⟨by rw [hfull], by rw [hfull]; rfl, by rw [hfull]; rfl, ?_⟩
    by_cases h1 : namesOK names <;> by_cases h2 : optsBad opts <;>
      by_cases h3 : fsBad opts <;> by_cases h4 : outBad opts <;>
      by_cases h5 : errBad opts <;>
      simp [validate, h1, h2, h3, h4, h5] at h <;>
      simp [violatedParams, h1, h2, h3, h4, h5, ← h] <;> decide

theorem validation_reports_typeError_witness :
    validate NamesArg.nullOrFalsy OptionsArg.absentOrFalsy =
      some "fileNames must be an Array-like object" ∧
    ((nodecatFull NamesArg.nullOrFalsy OptionsArg.absentOrFalsy envW7).1 =
        Outcome.typeError "fileNames must be an Array-like object" ∧
      (nodecatFull NamesArg.nullOrFalsy OptionsArg.absentOrFalsy envW7).2.out = [] ∧
      (nodecatFull NamesArg.nullOrFalsy OptionsArg.absentOrFalsy envW7).2.errLines = [] ∧
      ∃ p ∈ violatedParams NamesArg.nullOrFalsy OptionsArg.absentOrFalsy,
        strStarts p "fileNames must be an Array-like object" = true) :=
  ⟨by decide,
    (validation_reports_typeError NamesArg.nullOrFalsy OptionsArg.absentOrFalsy envW7).2
      "fileNames must be an Array-like object" (by decide)⟩

/-- C8 (counterexample): in the rendering of an aggregate containing a
nested aggregate, the depth-2 member `Error: m2` appears indented by
12 spaces (three indent units), not by the 8 spaces (two units) that
one additional level per nesting depth would give: the parent prefixes
one unit onto every line of the nested rendering, which already
indents its own members by two units. -/
theorem aggregate_indent_counterexample :
    aggregateErrorToString nestedAgg =
      "\nAggregateError of:\n    Error: m1\n    \n        AggregateError of:\n" ++
        "            Error: m2\n    \n" ∧
    (splitLines (aggregateErrorToString nestedAgg).data).contains
      "            Error: m2".data = true ∧
    (splitLines (aggregateErrorToString nestedAgg).data).contains
      "        Error: m2".data = false := by
  decide

/-- C8 (amended): an aggregate constructed without a message carries
the default message `Multiple errors occurred` (and otherwise its
argument); rendering lists each member's own rendering on its own
lines with indentation growing at each nesting level (a depth-2 member
sits at three indent units, since the parent adds one unit to every
line of the nested rendering), and a member that is the aggregate
itself renders as the fixed `[Circular AggregateError]` marker instead
of recursing. -/
theorem aggregate_error_rendering_amended :
    (∀ m : String, aggregateMessage (some m) = m) ∧
    aggregateMessage Option.none = "Multiple errors occurred" ∧
    (∀ level : Nat, renderEntry level AggEntry.selfRef = "[Circular AggregateError]") ∧
    aggregateErrorToString (AggEntry.agg (aggregateMessage Option.none) [AggEntry.selfRef]) =
      "\nAggregateError of:\n    [Circular AggregateError]\n" ∧
    aggregateErrorToString nestedAgg =
      "\nAggregateError of:\n    Error: m1\n    \n        AggregateError of:\n" ++
        "            Error: m2\n    \n" := by
  exact ⟨fun m => rfl, rfl, fun level => rfl, by decide, by decide⟩

/-- C9 (counterexample): a supplied falsy non-function callback (for
example `false` or `0`) with `global.Promise` available does not raise
a synchronous `TypeError` — the dispatch returns a `Promise` instead,
treating the falsy value like an absent callback. -/
theorem dispatch_counterexample :
    nodecatDispatch true false CbArg.falsyNonFunc = Dispatch.promise ∧
    nodecatDispatch true false CbArg.falsyNonFunc ≠
      Dispatch.throwTypeError "callback must be a function" := by
  decide

/-- C9 (amended): with no callback (or a falsy callback value, which
is treated as absent) the engine returns a promise when
`global.Promise` is a function and otherwise throws a synchronous
`TypeError`; a truthy non-function callback always throws the
synchronous `TypeError`; a function callback runs the engine; and the
returned promise settles by rejecting with the error result and
resolving on the success value. -/
theorem dispatch_amended :
    (∀ pa : Bool, nodecatDispatch pa false CbArg.truthyNonFunc =
      Dispatch.throwTypeError "callback must be a function") ∧
    nodecatDispatch true false CbArg.missing = Dispatch.promise ∧
    nodecatDispatch true false CbArg.falsyNonFunc = Dispatch.promise ∧
    nodecatDispatch false false CbArg.missing =
      Dispatch.throwTypeError "callback must be a function" ∧
    nodecatDispatch false false CbArg.falsyNonFunc =
      Dispatch.throwTypeError "callback must be a function" ∧
    (∀ pa oif : Bool, nodecatDispatch pa oif CbArg.func = Dispatch.run) ∧
    promiseSettle ErrAcc.none = Except.ok () ∧
    (∀ r : ErrRecord, promiseSettle (ErrAcc.single r) = Except.error (ErrAcc.single r)) ∧
    (∀ rs : List ErrRecord, promiseSettle (ErrAcc.agg rs) = Except.error (ErrAcc.agg rs)) := by
  exact ⟨by decide, by decide, by decide, by decide, by decide, by decide,
    rfl, fun r => rfl, fun rs => rfl⟩

end Nodecat
